import Mathlib

/-!
# Verification of the authority-before-execution core

A shallow embedding, in Lean 4, of the enforcement core of the
authority-before-execution repository:

* `decision.py` — the immutable value types `Proposal`, `Authority`,
  `Decision` and expiry evaluation (`Authority.is_expired`, `_as_utc`);
* `authority_gate.py` — the fail-closed gate `enforce_authority` and its
  three deny exceptions;
* `authority_bindings.py` — `bind_authority`, the pure constructor that
  attaches an `Authority` to a `Decision`;
* `executor.py` — `execute`, the total execution boundary that converts
  every gate denial into a structured result and exports an artifact;
* `artifact_exporter.py` — `export_execution_artifacts`, best-effort
  persistence of one JSON artifact per decision id;
* `evaluation.py` — `evaluate_decision_runs`, the batch aggregator.

Python datetimes are modelled by `PyDatetime` (a wall-clock reading plus an
optional UTC-offset), dictionaries produced by the executor by the structure
`ExecutionResult`, the artifact store by an association list from paths to
artifacts, and `collections.Counter` by an association list from strings to
counts.  Exceptions become `Except`; I/O failure of the exporter becomes an
explicit boolean input (`io_ok`) consumed where Python would raise inside the
`try` block.  Wall-clock reads (`datetime.now(timezone.utc)`) become an
explicit `now` argument.
-/

/-- A Python `datetime`: a naive wall-clock reading in seconds together with
an optional UTC offset in seconds (`none` models a naive datetime without
`tzinfo`). -/
structure PyDatetime where
  naive : Int
  tz : Option Int
deriving DecidableEq, Repr

/-- `decision._as_utc`: normalize a datetime to timezone-aware UTC.  A naive
datetime is reinterpreted as UTC (`replace(tzinfo=timezone.utc)`); an aware
one is converted to the same instant at offset zero (`astimezone`). -/
def as_utc (dt : PyDatetime) : PyDatetime :=
  match dt.tz with
  | none => { dt with tz := some 0 }
  | some off => { naive := dt.naive - off, tz := some 0 }

/-- The absolute instant (seconds since the epoch, on the UTC timeline) that a
`PyDatetime` denotes, a naive reading being taken as UTC.  Used only to state
theorems; the code's comparisons go through `as_utc`. -/
def instant (dt : PyDatetime) : Int :=
  match dt.tz with
  | none => dt.naive
  | some off => dt.naive - off

/-- `timedelta(seconds=s)` addition: `dt + s` shifts the wall-clock reading
and keeps the tzinfo. -/
def addSeconds (dt : PyDatetime) (s : Int) : PyDatetime :=
  { dt with naive := dt.naive + s }

/-- Parameters of a proposal (`Dict[str, Any]` in Python; the values are
opaque to the core, modelled as strings). -/
abbrev Params := List (String × String)

/-- `decision.Authority` — immutable authority grant. -/
structure Authority where
  approved_by : String
  reason : String
  scope : Option (List String)
  expires_at : Option PyDatetime
deriving DecidableEq, Repr

/-- `Authority.is_expired`: `False` when `expires_at` is `None`, otherwise
both timestamps are normalized to UTC and compared with `now >= expires`. -/
def Authority.is_expired (a : Authority) (now : PyDatetime) : Bool :=
  match a.expires_at with
  | none => false
  | some e => (as_utc e).naive ≤ (as_utc now).naive

/-- `decision.Proposal` — immutable proposed action. -/
structure Proposal where
  action : String
  params : Params
  rationale : String
deriving DecidableEq, Repr

/-- `decision.Decision` — immutable decision record. -/
structure Decision where
  proposal : Proposal
  authority : Option Authority
  decision_id : String
  created_at : PyDatetime
deriving DecidableEq, Repr

/-- The three exception classes of `authority_gate.py`
(`AuthorityMissing`, `AuthorityExpired`, `AuthorityScopeViolation`),
each carrying its message. -/
inductive GateError where
  | authorityMissing (msg : String)
  | authorityExpired (msg : String)
  | authorityScopeViolation (msg : String)
deriving DecidableEq, Repr

/-- `authority_gate._scope_allows_action`: `None` scope allows everything,
an explicit scope requires membership of the action. -/
def scope_allows_action (scope : Option (List String)) (action : String) : Bool :=
  match scope with
  | none => true
  | some s => decide (action ∈ s)

/-- `authority_gate.enforce_authority`: fail-closed enforcement, raising a
specific exception for each deny condition.  Python's truthiness test
`not authority.approved_by` on a string is emptiness.  The wall-clock read
`_utcnow()` is the explicit argument `now`. -/
def enforce_authority (decision : Decision) (now : PyDatetime) : Except GateError Unit :=
  match decision.authority with
  | none => .error (.authorityMissing "Execution blocked: authority not bound")
  | some authority =>
    if authority.approved_by = "" then
      .error (.authorityMissing "Execution blocked: authority missing approver")
    else if authority.reason = "" then
      .error (.authorityMissing "Execution blocked: authority missing justification")
    else if authority.is_expired now then
      .error (.authorityExpired "Execution blocked: authority expired")
    else if ¬ scope_allows_action authority.scope decision.proposal.action then
      .error (.authorityScopeViolation "Execution blocked: authority out of scope")
    else
      .ok ()

/-- `authority_bindings.bind_authority`: construct a new `Decision` carrying a
fresh `Authority` with `expires_at = now + ttl_seconds`.  `list(scope)` copies
the scope, which for an immutable list value is the identity.  The wall-clock
read is the explicit argument `now`. -/
def bind_authority (decision : Decision) (approved_by : String) (reason : String)
    (scope : Option (List String)) (ttl_seconds : Int) (now : PyDatetime) : Decision :=
  let expires_at := addSeconds now ttl_seconds
  let authority : Authority :=
    { approved_by := approved_by
      reason := reason
      scope := scope
      expires_at := some expires_at }
  { decision_id := decision.decision_id
    proposal := decision.proposal
    authority := some authority
    created_at := decision.created_at }

/-- The three deny kinds of the spec's taxonomy (§7). -/
inductive DenyKind where
  | missing_authority
  | expired_authority
  | scope_violation
deriving DecidableEq, Repr

/-- Outcome of the gate as the spec describes it: `Allowed` or `Denied` with
one of exactly three kinds. -/
inductive GateOutcome where
  | Allowed
  | Denied (kind : DenyKind)
deriving DecidableEq, Repr

/-- The deny kind signalled by each gate exception (the mapping the executor
applies in its `except` clauses). -/
def deny_kind_of : GateError → DenyKind
  | .authorityMissing _ => .missing_authority
  | .authorityExpired _ => .expired_authority
  | .authorityScopeViolation _ => .scope_violation

/-- The `deny_reason` string the executor writes for each gate exception. -/
def deny_reason_string : GateError → String
  | .authorityMissing _ => "missing_authority"
  | .authorityExpired _ => "expired_authority"
  | .authorityScopeViolation _ => "scope_violation"

/-- View of the gate's result as a spec-level outcome. -/
def outcome_of : Except GateError Unit → GateOutcome
  | .ok _ => .Allowed
  | .error e => .Denied (deny_kind_of e)

/-- Modelled from the spec (§4.1): the gate as the specification words it —
five checks in a strict order, short-circuiting at the first failure, each
failure mapped to its deny kind.  Written independently of
`enforce_authority` to be compared with it. -/
def gate_spec (decision : Decision) (now : PyDatetime) : GateOutcome :=
  match decision.authority with
  | none => .Denied .missing_authority
  | some a =>
    if a.approved_by = "" then .Denied .missing_authority
    else if a.reason = "" then .Denied .missing_authority
    else if a.is_expired now then .Denied .expired_authority
    else
      match a.scope with
      | none => .Allowed
      | some s => if decision.proposal.action ∈ s then .Allowed else .Denied .scope_violation

/-- `executor.INVARIANT_ID` / `artifact_exporter.INVARIANT_ID`. -/
def INVARIANT_ID : String := "ABE-EXEC-001"

/-- `executor.ENFORCEMENT_POINT` / `artifact_exporter.ENFORCEMENT_POINT`. -/
def ENFORCEMENT_POINT : String := "execution.commit"

/-- The structured result dictionary built by `executor.execute`.  Keys that
appear only in the allowed branch (`params`, `decision_snapshot`) or only in
the blocked branches (`message`) are `Option`s that are `none` when the key is
absent.  The `decision_snapshot` dictionary (produced by
`authority_gate.decision_snapshot`, a serialization of the decision) is
modelled by the `Decision` value it serializes. -/
structure ExecutionResult where
  status : String
  execution_allowed : Bool
  deny_reason : Option String
  message : Option String
  decision_id : String
  action : String
  params : Option Params
  authority_overbroad : Bool
  invariant_id : String
  enforcement_point : String
  decision_snapshot : Option Decision
deriving DecidableEq, Repr

/-- The JSON authority block of one artifact (`authority_block` in
`artifact_exporter.export_execution_artifacts`). -/
structure AuthorityBlock where
  approved_by : String
  scope : Option (List String)
  expires_at : Option String
deriving DecidableEq, Repr

/-- One exported JSON artifact document. -/
structure Artifact where
  decision_id : String
  timestamp : String
  invariant_id : String
  enforcement_point : String
  execution_allowed : Bool
  deny_reason : Option String
  authority_overbroad : Bool
  action : String
  params : Params
  authority : Option AuthorityBlock
deriving DecidableEq, Repr

/-- The artifact store: a mapping from file paths to JSON documents, as an
association list (first match wins on reads, writes overwrite in place). -/
abbrev ArtifactStore := List (String × Artifact)

/-- Opening a path in `"w"` mode and dumping a document: replaces the document
at that path, or creates it. -/
def storeWrite : ArtifactStore → String → Artifact → ArtifactStore
  | [], p, a => [(p, a)]
  | (q, b) :: rest, p, a =>
      if q = p then (p, a) :: rest else (q, b) :: storeWrite rest p a

/-- Reading the document at a path, `none` when no file exists there. -/
def storeRead : ArtifactStore → String → Option Artifact
  | [], _ => none
  | (q, b) :: rest, p => if q = p then some b else storeRead rest p

/-- `ARTIFACT_ROOT / f"{decision_id}.json"`. -/
def artifact_path (decision_id : String) : String :=
  "docs/artifacts/" ++ decision_id ++ ".json"

/-- `datetime.isoformat()` with `"+00:00"` replaced by `"Z"`, abstracted to an
injective rendering of the modelled datetime. -/
def isoformat_z (dt : PyDatetime) : String :=
  toString dt.naive ++
    (match dt.tz with
     | none => ""
     | some off => if off = 0 then "Z" else "+" ++ toString off)

/-- The artifact document `export_execution_artifacts` assembles from a
decision and an execution result (the body of its `try` block up to the
write).  `if decision.authority:` on a dataclass instance is a `None` test;
`if decision.authority.expires_at:` on a datetime is likewise a `None` test.
`_utcnow_iso()` is rendered from the explicit `now` argument. -/
def mkArtifact (now : PyDatetime) (decision : Decision)
    (execution_result : ExecutionResult) : Artifact :=
  let authority_block : Option AuthorityBlock :=
    match decision.authority with
    | none => none
    | some a =>
        some { approved_by := a.approved_by
               scope := a.scope
               expires_at := a.expires_at.map isoformat_z }
  { decision_id := decision.decision_id
    timestamp := isoformat_z (as_utc now)
    invariant_id := INVARIANT_ID
    enforcement_point := ENFORCEMENT_POINT
    execution_allowed := execution_result.execution_allowed
    deny_reason := execution_result.deny_reason
    authority_overbroad := execution_result.authority_overbroad
    action := decision.proposal.action
    params := decision.proposal.params
    authority := authority_block }

/-- `artifact_exporter.export_execution_artifacts`: best-effort persistence.
The whole body sits in a `try` block whose `except Exception` clause returns
with no effect; `io_ok = false` models any I/O or serialization failure inside
the `try` (missing directory, permission error, ...), in which case the store
is left untouched and no error escapes. -/
def export_execution_artifacts (io_ok : Bool) (now : PyDatetime)
    (store : ArtifactStore) (decision : Decision)
    (execution_result : ExecutionResult) : ArtifactStore :=
  if io_ok then
    storeWrite store (artifact_path decision.decision_id)
      (mkArtifact now decision execution_result)
  else
    store

/-- The allowed-branch result dictionary of `executor.execute`.
`authority_overbroad` is set exactly when an authority is present and its
scope is `None`. -/
def mkAllowedResult (decision : Decision) : ExecutionResult :=
  let authority_overbroad :=
    match decision.authority with
    | some a => a.scope.isNone
    | none => false
  { status := "executed"
    execution_allowed := true
    deny_reason := none
    message := none
    decision_id := decision.decision_id
    action := decision.proposal.action
    params := some decision.proposal.params
    authority_overbroad := authority_overbroad
    invariant_id := INVARIANT_ID
    enforcement_point := ENFORCEMENT_POINT
    decision_snapshot := some decision }

/-- The blocked-branch result dictionary of `executor.execute`, shared shape
of its three `except` clauses. -/
def mkBlockedResult (decision : Decision) (deny_reason msg : String) : ExecutionResult :=
  { status := "blocked"
    execution_allowed := false
    deny_reason := some deny_reason
    message := some msg
    decision_id := decision.decision_id
    action := decision.proposal.action
    params := none
    authority_overbroad := false
    invariant_id := INVARIANT_ID
    enforcement_point := ENFORCEMENT_POINT
    decision_snapshot := none }

/-- `executor.execute`: the execution boundary.  It calls the gate inside a
`try` whose `except` clauses catch exactly the three gate exceptions and
convert them into structured blocked results; each branch exports an artifact
before returning.  The function returns the result together with the artifact
store after the export side effect.  It is a total Lean function: no error is
raised or propagated on any input, matching the contract. -/
def execute (now : PyDatetime) (io_ok : Bool) (store : ArtifactStore)
    (decision : Decision) : ExecutionResult × ArtifactStore :=
  match enforce_authority decision now with
  | .ok _ =>
      let result := mkAllowedResult decision
      (result, export_execution_artifacts io_ok now store decision result)
  | .error e =>
      let result := mkBlockedResult decision (deny_reason_string e)
        (match e with
         | .authorityMissing msg => msg
         | .authorityExpired msg => msg
         | .authorityScopeViolation msg => msg)
      (result, export_execution_artifacts io_ok now store decision result)

/-- A `collections.Counter` over strings: an association list from keys to
counts; a key is present exactly when it has been incremented. -/
abbrev DenyCounter := List (String × Nat)

/-- `counter[key] += 1`: bump an existing entry or create one at 1. -/
def counterIncr : DenyCounter → String → DenyCounter
  | [], k => [(k, 1)]
  | (q, n) :: rest, k =>
      if q = k then (q, n + 1) :: rest else (q, n) :: counterIncr rest k

/-- Lookup in a counter, 0 for an absent key (Counter semantics). -/
def counterGet : DenyCounter → String → Nat
  | [], _ => 0
  | (q, n) :: rest, k => if q = k then n else counterGet rest k

/-- Whether a key has an entry in the counter (dict membership). -/
def counterHasKey : DenyCounter → String → Bool
  | [], _ => false
  | (q, _) :: rest, k => q = k || counterHasKey rest k

/-- `sum(counter.values())`. -/
def counterSum (c : DenyCounter) : Nat :=
  (c.map Prod.snd).sum

/-- The deny-reason key for one result: `r.get("deny_reason", "unknown")`,
the default standing in for an absent key. -/
def denyKey (r : ExecutionResult) : String :=
  r.deny_reason.getD "unknown"

/-- The running state of the aggregation loop in
`evaluation.evaluate_decision_runs`. -/
structure EvalState where
  allowed : Nat
  denied : Nat
  overbroad : Nat
  deny_reasons : DenyCounter
deriving DecidableEq, Repr

/-- One iteration of the loop body: classify the result as allowed or denied
(counting the deny reason when denied), then count overbroad authority. -/
def evalStep (s : EvalState) (r : ExecutionResult) : EvalState :=
  let s1 :=
    if r.execution_allowed then
      { s with allowed := s.allowed + 1 }
    else
      { s with denied := s.denied + 1
               deny_reasons := counterIncr s.deny_reasons (denyKey r) }
  if r.authority_overbroad then { s1 with overbroad := s1.overbroad + 1 } else s1

/-- The summary dictionary returned by `evaluate_decision_runs`. -/
structure Summary where
  total_attempts : Nat
  allowed : Nat
  denied : Nat
  allow_rate : Rat
  deny_breakdown : DenyCounter
  overbroad_authority_used : Nat
deriving DecidableEq, Repr

/-- `evaluation.evaluate_decision_runs`: aggregate execution outcomes across
multiple attempts.  `allowed / total if total else 0.0` guards the division by
zero; the quotient is modelled exactly in `Rat`. -/
def evaluate_decision_runs (results : List ExecutionResult) : Summary :=
  let total := results.length
  let s := results.foldl evalStep ⟨0, 0, 0, []⟩
  { total_attempts := total
    allowed := s.allowed
    denied := s.denied
    allow_rate := if total ≠ 0 then (s.allowed : Rat) / (total : Rat) else 0
    deny_breakdown := s.deny_reasons
    overbroad_authority_used := s.overbroad }

/-! ### Concrete sample data (spec §8 scenarios), used to instantiate theorems -/

/-- A sample execution time, 1000 seconds into the epoch, timezone-aware UTC. -/
def now0 : PyDatetime := ⟨1000, some 0⟩

/-- Scenario 1's proposal: `action = "deploy_model"`. -/
def prop0 : Proposal := ⟨"deploy_model", [("env", "prod")], "ship it"⟩

/-- Scenario 1's decision: no authority bound. -/
def dNoAuth : Decision := ⟨prop0, none, "d1", ⟨900, some 0⟩⟩

/-- Scenario 2's authority: approved, justified, scoped to the action, and
unexpired at `now0`. -/
def authGood : Authority := ⟨"lead@x", "ok", some ["deploy_model"], some ⟨1005, some 0⟩⟩

/-- Scenario 2's decision: `authGood` bound to `prop0`. -/
def dGood : Decision := ⟨prop0, some authGood, "d2", ⟨900, some 0⟩⟩

/-- A blocked result for exporter instantiations. -/
def res0 : ExecutionResult := mkBlockedResult dNoAuth "missing_authority" "m"

/-- A store holding a prior artifact under `dNoAuth`'s path, to exercise
overwrite semantics. -/
def store0 : ArtifactStore := [(artifact_path "d1", mkArtifact now0 dGood res0)]

/-- Sample denied result: executing scenario 1. -/
def resA : ExecutionResult := (execute now0 true [] dNoAuth).1

/-- Sample allowed result: executing scenario 2. -/
def resB : ExecutionResult := (execute now0 true [] dGood).1

/-! ### Helper lemmas -/

/-- Normalizing to UTC preserves the denoted instant, naive readings being
taken as UTC. -/
theorem as_utc_naive (dt : PyDatetime) : (as_utc dt).naive = instant dt := by
  rcases dt with ⟨n, tz⟩
  cases tz <;> rfl

/-! ### Claims -/

/-- C1.  Authority enforcement refines the spec's gate: for every decision and
time, `enforce_authority` — checking, in order and short-circuiting, (1)
authority bound, (2) approver non-empty, (3) reason non-empty, (4) not
expired, (5) scope `None` or action in scope — yields exactly the outcome of
`gate_spec`, the five ordered checks as the spec words them, with the deny
kinds `missing_authority`, `expired_authority`, `scope_violation`.  Exactly
three deny kinds exist (`DenyKind` has three constructors) and they are
mutually exclusive for any one decision since the gate is a function into
`GateOutcome`. -/
theorem enforce_authority_matches_gate_spec (d : Decision) (now : PyDatetime) :
    outcome_of (enforce_authority d now) = gate_spec d now := by
  unfold enforce_authority gate_spec
  cases hauth : d.authority with
  | none => rfl
  | some a =>
    by_cases h1 : a.approved_by = ""
    · simp [h1, outcome_of, deny_kind_of]
    · by_cases h2 : a.reason = ""
      · simp [h1, h2, outcome_of, deny_kind_of]
      · by_cases h3 : a.is_expired now = true
        · simp [h1, h2, h3, outcome_of, deny_kind_of]
        · cases hs : a.scope with
          | none =>
            simp [h1, h2, h3, hs, outcome_of, deny_kind_of, scope_allows_action]
          | some s =>
            by_cases hm : d.proposal.action ∈ s
            · simp [h1, h2, h3, hs, hm, outcome_of, deny_kind_of, scope_allows_action]
            · simp [h1, h2, h3, hs, hm, outcome_of, deny_kind_of, scope_allows_action]

/-- C3.  `is_expired` is false for `expires_at = None`, and otherwise holds
exactly when the instant of `now` is at or past the instant of `expires_at`
(both sides normalized to UTC — `instant` is what UTC normalization exposes,
see `as_utc_naive`); the boundary is inclusive. -/
theorem is_expired_iff (a : Authority) (now : PyDatetime) :
    a.is_expired now = true ↔ ∃ e, a.expires_at = some e ∧ instant e ≤ instant now := by
  cases he : a.expires_at with
  | none => simp [Authority.is_expired, he]
  | some e => simp [Authority.is_expired, he, as_utc_naive]

/-- C5.  `bind_authority` returns a new `Decision` whose authority is exactly
the fresh grant with `expires_at = now + ttl_seconds` (for every
`ttl_seconds`, zero and negative included) and whose `decision_id`,
`proposal` and `created_at` equal the argument's.  The argument itself is
unchanged: `Decision` is an immutable value (`frozen=True` dataclass) and the
embedding is pure, so `d`'s fields — in particular `d.authority` — are the
same after the call by construction. -/
theorem bind_authority_pure (d : Decision) (ab r : String)
    (sc : Option (List String)) (ttl : Int) (now : PyDatetime) :
    (bind_authority d ab r sc ttl now).authority
        = some ⟨ab, r, sc, some (addSeconds now ttl)⟩
      ∧ (bind_authority d ab r sc ttl now).decision_id = d.decision_id
      ∧ (bind_authority d ab r sc ttl now).proposal = d.proposal
      ∧ (bind_authority d ab r sc ttl now).created_at = d.created_at :=
  ⟨rfl, rfl, rfl, rfl⟩

/-- C10.  Every decision produced by `bind_authority` carries an authority
whose `expires_at` is `some` value — namely `now + ttl_seconds` — so a
never-expiring authority (`expires_at = None`) can never come out of `bind`;
it can only be built by constructing an `Authority` directly. -/
theorem bind_authority_always_time_bounded (d : Decision) (ab r : String)
    (sc : Option (List String)) (ttl : Int) (now : PyDatetime) :
    ∃ a, (bind_authority d ab r sc ttl now).authority = some a
      ∧ a.expires_at = some (addSeconds now ttl) :=
  ⟨_, rfl, rfl⟩

/-- Reading back the path just written yields the document just written
(write-then-read). -/
theorem storeRead_write_self (s : ArtifactStore) (p : String) (a : Artifact) :
    storeRead (storeWrite s p a) p = some a := by
  induction s with
  | nil => simp [storeWrite, storeRead]
  | cons hd tl ih =>
    rcases hd with ⟨k, b⟩
    by_cases h : k = p
    · simp [storeWrite, storeRead, h]
    · simp [storeWrite, storeRead, h, ih]

/-- Writing one path leaves every other path's document unchanged. -/
theorem storeRead_write_other (s : ArtifactStore) (p q : String) (a : Artifact)
    (hq : q ≠ p) : storeRead (storeWrite s p a) q = storeRead s q := by
  induction s with
  | nil => simp [storeWrite, storeRead, Ne.symm hq]
  | cons hd tl ih =>
    rcases hd with ⟨k, b⟩
    by_cases h : k = p
    · subst h
      simp [storeWrite, storeRead, Ne.symm hq]
    · by_cases h2 : k = q <;> simp [storeWrite, storeRead, h, h2, hq, ih]

/-- C2.  `execute` is total by construction (a total Lean function mirroring a
`try` whose `except` clauses catch exactly the three gate exceptions, with the
exporter swallowing its own failures), its returned result is independent of
exporter failure (`io_ok`) and of the artifact store, and every gate denial
becomes a structured result with `status = "blocked"`,
`execution_allowed = false` and the corresponding `deny_reason`
(`missing_authority`, `expired_authority` or `scope_violation`). -/
theorem execute_total_blocked (now : PyDatetime) (ok ok' : Bool)
    (store store' : ArtifactStore) (d : Decision) :
    (execute now ok store d).1 = (execute now ok' store' d).1
      ∧ ∀ e, enforce_authority d now = .error e →
          (execute now ok store d).1.status = "blocked"
            ∧ (execute now ok store d).1.execution_allowed = false
            ∧ (execute now ok store d).1.deny_reason = some (deny_reason_string e) := by
  cases he : enforce_authority d now with
  | ok u =>
    refine ⟨by simp [execute, he], ?_⟩
    intro e hcontra
    exact absurd hcontra (by simp)
  | error e' =>
    refine ⟨by simp [execute, he], ?_⟩
    intro e hee
    injection hee with h
    subst h
    simp [execute, he, mkBlockedResult]

/-- Witness for C2: executing scenario 1 (no authority bound) yields the
blocked `missing_authority` result. -/
theorem execute_total_blocked_witness :
    (execute now0 true [] dNoAuth).1.status = "blocked"
      ∧ (execute now0 true [] dNoAuth).1.execution_allowed = false
      ∧ (execute now0 true [] dNoAuth).1.deny_reason = some "missing_authority" :=
  (execute_total_blocked now0 true false [] [] dNoAuth).2
    (.authorityMissing "Execution blocked: authority not bound") rfl

/-- C4.  For every decision that passes the gate — authority bound, approver
and reason non-empty, unexpired, scope `None` or containing the action —
`execute` returns `execution_allowed = true` with
`authority_overbroad = (scope is None)`; and every denied decision's result
has `authority_overbroad = false`. -/
theorem execute_overbroad_flag :
    (∀ (now : PyDatetime) (ok : Bool) (store : ArtifactStore) (d : Decision)
        (a : Authority), d.authority = some a → a.approved_by ≠ "" → a.reason ≠ "" →
        a.is_expired now = false →
        scope_allows_action a.scope d.proposal.action = true →
        (execute now ok store d).1.execution_allowed = true
          ∧ (execute now ok store d).1.authority_overbroad = a.scope.isNone)
      ∧ ∀ (now : PyDatetime) (ok : Bool) (store : ArtifactStore) (d : Decision),
          (execute now ok store d).1.execution_allowed = false →
          (execute now ok store d).1.authority_overbroad = false := by
  constructor
  · intro now ok store d a ha h1 h2 h3 h4
    have hok : enforce_authority d now = .ok () := by
      simp [enforce_authority, ha, h1, h2, h3, h4]
    constructor
    · simp [execute, hok, mkAllowedResult]
    · simp [execute, hok, mkAllowedResult, ha]
  · intro now ok store d h
    cases he : enforce_authority d now with
    | ok u => simp [execute, he, mkAllowedResult] at h
    | error e => simp [execute, he, mkBlockedResult]

/-- Witness for C4: scenario 2 (valid scoped authority) executes with the
overbroad flag down, and scenario 1 (denied) also reports
`authority_overbroad = false`. -/
theorem execute_overbroad_flag_witness :
    ((execute now0 true [] dGood).1.execution_allowed = true
        ∧ (execute now0 true [] dGood).1.authority_overbroad = false)
      ∧ (execute now0 true [] dNoAuth).1.authority_overbroad = false := by
  have h1 := execute_overbroad_flag.1 now0 true [] dGood authGood rfl
    (by decide) (by decide) (by decide) (by decide)
  have h2 := execute_overbroad_flag.2 now0 true [] dNoAuth rfl
  exact ⟨⟨h1.1, h1.2⟩, h2⟩

/-- C6.  The exporter is total (never raises: all failure is the caught
branch), a failed export leaves the store — and hence the already-computed
execution result — untouched, a successful export writes exactly the one
document for `decision_id` (every other path reads back unchanged) with
overwrite semantics over any prior store, and the document's authority block
is `null` exactly when the decision has no authority bound. -/
theorem export_execution_artifacts_spec (now : PyDatetime) (store : ArtifactStore)
    (d : Decision) (r : ExecutionResult) :
    export_execution_artifacts false now store d r = store
      ∧ storeRead (export_execution_artifacts true now store d r)
          (artifact_path d.decision_id) = some (mkArtifact now d r)
      ∧ (∀ p, p ≠ artifact_path d.decision_id →
          storeRead (export_execution_artifacts true now store d r) p
            = storeRead store p)
      ∧ ((mkArtifact now d r).authority = none ↔ d.authority = none) := by
  refine ⟨rfl, ?_, ?_, ?_⟩
  · simp [export_execution_artifacts, storeRead_write_self]
  · intro p hp
    simp [export_execution_artifacts, storeRead_write_other _ _ _ _ hp]
  · cases h : d.authority <;> simp [mkArtifact, h]

/-- Witness for C6: exporting over `store0` (which already holds an artifact
under the same path) leaves an unrelated path unchanged, and the re-exported
path holds the fresh document. -/
theorem export_execution_artifacts_spec_witness :
    storeRead (export_execution_artifacts true now0 store0 dNoAuth res0) "other"
        = storeRead store0 "other"
      ∧ storeRead (export_execution_artifacts true now0 store0 dNoAuth res0)
          (artifact_path "d1") = some (mkArtifact now0 dNoAuth res0) := by
  have h := export_execution_artifacts_spec now0 store0 dNoAuth res0
  exact ⟨h.2.2.1 "other" (by decide), h.2.1⟩

/-- The loop body's effect on the `allowed` counter. -/
theorem evalStep_allowed (s : EvalState) (r : ExecutionResult) :
    (evalStep s r).allowed = if r.execution_allowed then s.allowed + 1 else s.allowed := by
  cases hb : r.execution_allowed <;> cases ho : r.authority_overbroad <;>
    simp [evalStep, hb, ho]

/-- The loop body's effect on the `denied` counter. -/
theorem evalStep_denied (s : EvalState) (r : ExecutionResult) :
    (evalStep s r).denied = if r.execution_allowed then s.denied else s.denied + 1 := by
  cases hb : r.execution_allowed <;> cases ho : r.authority_overbroad <;>
    simp [evalStep, hb, ho]

/-- The loop body's effect on the `overbroad` counter. -/
theorem evalStep_overbroad (s : EvalState) (r : ExecutionResult) :
    (evalStep s r).overbroad
      = if r.authority_overbroad then s.overbroad + 1 else s.overbroad := by
  cases hb : r.execution_allowed <;> cases ho : r.authority_overbroad <;>
    simp [evalStep, hb, ho]

/-- The loop body's effect on the deny-reason counter. -/
theorem evalStep_deny_reasons (s : EvalState) (r : ExecutionResult) :
    (evalStep s r).deny_reasons
      = if r.execution_allowed then s.deny_reasons
        else counterIncr s.deny_reasons (denyKey r) := by
  cases hb : r.execution_allowed <;> cases ho : r.authority_overbroad <;>
    simp [evalStep, hb, ho]

/-- Incrementing a counter key bumps exactly that key's count. -/
theorem counterGet_incr (c : DenyCounter) (k q : String) :
    counterGet (counterIncr c k) q = counterGet c q + (if k = q then 1 else 0) := by
  induction c with
  | nil => by_cases h : k = q <;> simp [counterIncr, counterGet, h]
  | cons hd tl ih =>
    rcases hd with ⟨k', n⟩
    by_cases h : k' = k
    · subst h
      by_cases h2 : k' = q <;> simp [counterIncr, counterGet, h2]
    · by_cases h2 : k' = q
      · subst h2
        have hk : k ≠ k' := fun hh => h hh.symm
        simp [counterIncr, counterGet, h, hk]
      · simp [counterIncr, counterGet, h, h2, ih]

/-- Incrementing any key raises the total count by one. -/
theorem counterSum_incr (c : DenyCounter) (k : String) :
    counterSum (counterIncr c k) = counterSum c + 1 := by
  induction c with
  | nil => simp [counterIncr, counterSum]
  | cons hd tl ih =>
    rcases hd with ⟨k', n⟩
    by_cases h : k' = k <;> simp [counterIncr, counterSum, h] at ih ⊢ <;> omega

/-- Incrementing preserves strict positivity of every stored count. -/
theorem counterIncr_pos : ∀ (c : DenyCounter) (k : String),
    (∀ p ∈ c, 0 < p.2) → ∀ p ∈ counterIncr c k, 0 < p.2 := by
  intro c k
  induction c with
  | nil =>
    intro _ p hp
    simp [counterIncr] at hp
    simp [hp]
  | cons hd tl ih =>
    intro hc p hp
    rcases hd with ⟨k', n⟩
    have htl : ∀ p ∈ tl, 0 < p.2 := fun p hp => hc p (List.mem_cons_of_mem _ hp)
    have hhd : 0 < n := hc ⟨k', n⟩ (List.mem_cons_self _ _)
    by_cases h : k' = k
    · simp [counterIncr, h] at hp
      rcases hp with hp | hp
      · simp [hp]
      · exact htl p hp
    · simp [counterIncr, h] at hp
      rcases hp with hp | hp
      · simp [hp]
        exact hhd
      · exact ih htl p hp

/-- In a counter with positive counts, a key is present iff its count is
positive (Counter semantics: no zero-filled entries). -/
theorem counterHasKey_iff_pos : ∀ (c : DenyCounter), (∀ p ∈ c, 0 < p.2) →
    ∀ q, (counterHasKey c q = true ↔ 0 < counterGet c q) := by
  intro c
  induction c with
  | nil => intro _ q; simp [counterHasKey, counterGet]
  | cons hd tl ih =>
    intro hc q
    rcases hd with ⟨k', n⟩
    by_cases h : k' = q
    · simp [counterHasKey, counterGet, h]
      exact hc ⟨k', n⟩ (List.mem_cons_self _ _)
    · simp [counterHasKey, counterGet, h]
      exact ih (fun p hp => hc p (List.mem_cons_of_mem _ hp)) q

/-- Unrolling the aggregation loop: the `allowed` count over any initial
state. -/
theorem foldl_evalStep_allowed (l : List ExecutionResult) :
    ∀ s : EvalState, (l.foldl evalStep s).allowed
      = s.allowed + l.countP (fun r => r.execution_allowed) := by
  induction l with
  | nil => intro s; simp
  | cons r tl ih =>
    intro s
    simp only [List.foldl_cons, List.countP_cons, ih]
    cases hb : r.execution_allowed <;> simp [evalStep_allowed, hb] <;> omega

/-- Unrolling the aggregation loop: the `denied` count over any initial
state. -/
theorem foldl_evalStep_denied (l : List ExecutionResult) :
    ∀ s : EvalState, (l.foldl evalStep s).denied
      = s.denied + l.countP (fun r => !r.execution_allowed) := by
  induction l with
  | nil => intro s; simp
  | cons r tl ih =>
    intro s
    simp only [List.foldl_cons, List.countP_cons, ih]
    cases hb : r.execution_allowed <;> simp [evalStep_denied, hb] <;> omega

/-- Unrolling the aggregation loop: the `overbroad` count over any initial
state. -/
theorem foldl_evalStep_overbroad (l : List ExecutionResult) :
    ∀ s : EvalState, (l.foldl evalStep s).overbroad
      = s.overbroad + l.countP (fun r => r.authority_overbroad) := by
  induction l with
  | nil => intro s; simp
  | cons r tl ih =>
    intro s
    simp only [List.foldl_cons, List.countP_cons, ih]
    cases hb : r.authority_overbroad <;> simp [evalStep_overbroad, hb] <;> omega

/-- Unrolling the aggregation loop: each deny reason's count over any initial
state. -/
theorem foldl_evalStep_counterGet (l : List ExecutionResult) (k : String) :
    ∀ s : EvalState, counterGet (l.foldl evalStep s).deny_reasons k
      = counterGet s.deny_reasons k
        + l.countP (fun r => !r.execution_allowed && denyKey r == k) := by
  induction l with
  | nil => intro s; simp
  | cons r tl ih =>
    intro s
    simp only [List.foldl_cons, List.countP_cons, ih]
    rw [evalStep_deny_reasons]
    cases hb : r.execution_allowed
    · by_cases hk : denyKey r = k <;> simp [hb, hk, counterGet_incr] <;> omega
    · simp [hb]

/-- Unrolling the aggregation loop: the total of the deny-reason counter over
any initial state. -/
theorem foldl_evalStep_counterSum (l : List ExecutionResult) :
    ∀ s : EvalState, counterSum (l.foldl evalStep s).deny_reasons
      = counterSum s.deny_reasons + l.countP (fun r => !r.execution_allowed) := by
  induction l with
  | nil => intro s; simp
  | cons r tl ih =>
    intro s
    simp only [List.foldl_cons, List.countP_cons, ih]
    rw [evalStep_deny_reasons]
    cases hb : r.execution_allowed <;> simp [hb, counterSum_incr] <;> omega

/-- The aggregation loop only ever stores positive counts. -/
theorem foldl_evalStep_pos (l : List ExecutionResult) :
    ∀ s : EvalState, (∀ p ∈ s.deny_reasons, 0 < p.2) →
      ∀ p ∈ (l.foldl evalStep s).deny_reasons, 0 < p.2 := by
  induction l with
  | nil => intro s hs; simpa using hs
  | cons r tl ih =>
    intro s hs
    refine ih _ ?_
    rw [evalStep_deny_reasons]
    cases hb : r.execution_allowed
    · simpa [hb] using counterIncr_pos _ _ hs
    · simpa [hb] using hs

/-- A boolean predicate and its negation split a list's length. -/
theorem countP_split (l : List ExecutionResult) (f : ExecutionResult → Bool) :
    l.countP f + l.countP (fun r => !f r) = l.length := by
  induction l with
  | nil => simp
  | cons r tl ih => cases hb : f r <;> simp [List.countP_cons, hb] <;> omega

/-- C7.  For every list of execution results, the summary satisfies
`allowed + denied = total_attempts` — `allowed` counting exactly the results
with `execution_allowed` true and `denied` the rest — and the counts of
`deny_breakdown` sum to `denied`, `deny_breakdown` being computed only over
denied results with every stored entry strictly positive (no zero-filled
entries for absent reasons). -/
theorem evaluate_decision_runs_counts (results : List ExecutionResult) :
    (evaluate_decision_runs results).allowed
        = results.countP (fun r => r.execution_allowed)
      ∧ (evaluate_decision_runs results).denied
          = results.countP (fun r => !r.execution_allowed)
      ∧ (evaluate_decision_runs results).allowed + (evaluate_decision_runs results).denied
          = (evaluate_decision_runs results).total_attempts
      ∧ counterSum (evaluate_decision_runs results).deny_breakdown
          = (evaluate_decision_runs results).denied
      ∧ (evaluate_decision_runs results).deny_breakdown.all
          (fun p => decide (0 < p.2)) = true := by
  have ha := foldl_evalStep_allowed results ⟨0, 0, 0, []⟩
  have hd := foldl_evalStep_denied results ⟨0, 0, 0, []⟩
  have hs := foldl_evalStep_counterSum results ⟨0, 0, 0, []⟩
  have hp := foldl_evalStep_pos results ⟨0, 0, 0, []⟩ (by simp)
  refine ⟨?_, ?_, ?_, ?_, ?_⟩
  · simpa using ha
  · simpa using hd
  · show (results.foldl evalStep ⟨0, 0, 0, []⟩).allowed
        + (results.foldl evalStep ⟨0, 0, 0, []⟩).denied = results.length
    rw [ha, hd]
    simpa using countP_split results (fun r => r.execution_allowed)
  · show counterSum (results.foldl evalStep ⟨0, 0, 0, []⟩).deny_reasons
        = (results.foldl evalStep ⟨0, 0, 0, []⟩).denied
    rw [hs, hd]
    simp [counterSum]
  · rw [List.all_eq_true]
    intro p hpmem
    simpa using hp p hpmem

/-- C8.  Aggregating the empty list yields exactly the zero summary — all
counts 0, `allow_rate = 0.0` (the division is guarded by the `if total`
test), and an empty `deny_breakdown`. -/
theorem evaluate_decision_runs_empty :
    evaluate_decision_runs []
      = { total_attempts := 0, allowed := 0, denied := 0, allow_rate := 0,
          deny_breakdown := [], overbroad_authority_used := 0 } := by
  rfl

/-- C9.  Aggregation is pure and order-independent: permuting the result list
leaves every summary field unchanged — the numeric fields and `allow_rate` as
values, and `deny_breakdown` as a dictionary (every key has the same count
and the same membership on both sides). -/
theorem evaluate_decision_runs_perm (l₁ l₂ : List ExecutionResult)
    (hperm : l₁.Perm l₂) :
    (evaluate_decision_runs l₁).total_attempts
        = (evaluate_decision_runs l₂).total_attempts
      ∧ (evaluate_decision_runs l₁).allowed = (evaluate_decision_runs l₂).allowed
      ∧ (evaluate_decision_runs l₁).denied = (evaluate_decision_runs l₂).denied
      ∧ (evaluate_decision_runs l₁).allow_rate = (evaluate_decision_runs l₂).allow_rate
      ∧ (evaluate_decision_runs l₁).overbroad_authority_used
          = (evaluate_decision_runs l₂).overbroad_authority_used
      ∧ ∀ k, counterGet (evaluate_decision_runs l₁).deny_breakdown k
              = counterGet (evaluate_decision_runs l₂).deny_breakdown k
          ∧ counterHasKey (evaluate_decision_runs l₁).deny_breakdown k
              = counterHasKey (evaluate_decision_runs l₂).deny_breakdown k := by
  have hlen := hperm.length_eq
  have hA : (l₁.foldl evalStep ⟨0, 0, 0, []⟩).allowed
      = (l₂.foldl evalStep ⟨0, 0, 0, []⟩).allowed := by
    rw [foldl_evalStep_allowed, foldl_evalStep_allowed, hperm.countP_eq]
  have hD : (l₁.foldl evalStep ⟨0, 0, 0, []⟩).denied
      = (l₂.foldl evalStep ⟨0, 0, 0, []⟩).denied := by
    rw [foldl_evalStep_denied, foldl_evalStep_denied, hperm.countP_eq]
  have hO : (l₁.foldl evalStep ⟨0, 0, 0, []⟩).overbroad
      = (l₂.foldl evalStep ⟨0, 0, 0, []⟩).overbroad := by
    rw [foldl_evalStep_overbroad, foldl_evalStep_overbroad, hperm.countP_eq]
  have hG : ∀ k, counterGet (l₁.foldl evalStep ⟨0, 0, 0, []⟩).deny_reasons k
      = counterGet (l₂.foldl evalStep ⟨0, 0, 0, []⟩).deny_reasons k := by
    intro k
    rw [foldl_evalStep_counterGet, foldl_evalStep_counterGet, hperm.countP_eq]
  have hP1 := foldl_evalStep_pos l₁ ⟨0, 0, 0, []⟩ (by simp)
  have hP2 := foldl_evalStep_pos l₂ ⟨0, 0, 0, []⟩ (by simp)
  have hK : ∀ k, counterHasKey (l₁.foldl evalStep ⟨0, 0, 0, []⟩).deny_reasons k
      = counterHasKey (l₂.foldl evalStep ⟨0, 0, 0, []⟩).deny_reasons k := by
    intro k
    have i1 := counterHasKey_iff_pos _ hP1 k
    have i2 := counterHasKey_iff_pos _ hP2 k
    rw [hG k] at i1
    exact Bool.eq_iff_iff.mpr (i1.trans i2.symm)
  have hR : (evaluate_decision_runs l₁).allow_rate
      = (evaluate_decision_runs l₂).allow_rate := by
    show (if l₁.length ≠ 0
            then ((l₁.foldl evalStep ⟨0, 0, 0, []⟩).allowed : Rat) / (l₁.length : Rat)
            else 0)
        = (if l₂.length ≠ 0
            then ((l₂.foldl evalStep ⟨0, 0, 0, []⟩).allowed : Rat) / (l₂.length : Rat)
            else 0)
    rw [hA, hlen]
  exact ⟨hlen, hA, hD, hR, hO, fun k => ⟨hG k, hK k⟩⟩

/-- Witness for C9: swapping the two scenario results (one denied, one
allowed) leaves the allowed count and the `missing_authority` breakdown entry
unchanged. -/
theorem evaluate_decision_runs_perm_witness :
    (evaluate_decision_runs [resA, resB]).allowed
        = (evaluate_decision_runs [resB, resA]).allowed
      ∧ counterGet (evaluate_decision_runs [resA, resB]).deny_breakdown
            "missing_authority"
          = counterGet (evaluate_decision_runs [resB, resA]).deny_breakdown
            "missing_authority" := by
  have h := evaluate_decision_runs_perm [resA, resB] [resB, resA]
    (List.Perm.swap resB resA [])
  exact ⟨h.2.1, (h.2.2.2.2.2 "missing_authority").1⟩
